import Mathlib

/-!
Shallow embedding of the resilient GitHub API-access layer of the
`my-mcp-github-project-manager` repository, together with proofs about it.

The embedding covers:
* `CacheManager` (src/src/infrastructure/persistence/Cache.ts): a TTL cache
  with hit/miss statistics, glob invalidation and LRU/LFU/FIFO eviction;
* `RESTClient` (an unnamed source file of the repository): retry/backoff
  request execution, pagination and the cached GET path;
* `GraphQLClient` (src/src/infrastructure/github/GraphQLClient.ts): retry
  execution and the query-batching queue.

Modelling conventions: JavaScript numbers are modelled as `Nat`/`Int`/`Rat`
with exact arithmetic (the values appearing in the verified statements are
small integers, where IEEE doubles are exact); a JS `Map` is modelled as an
association list in insertion order; `Array.prototype.sort` with an
`a - b` comparator is modelled as a stable ascending insertion sort;
promises/timers are modelled by explicit state passing and event traces.
-/

namespace GPM

/-- JSON-serialisable scalar values, used as the generic value type of the
cache. Composite JSON values are not needed by any verified statement; the
claims under verification only depend on scalar values (`0`, `""`, `false`,
`null`, …), so the value universe is restricted to scalars. -/
inductive JSValue where
  | null
  | bool (b : Bool)
  | num (n : Int)
  | str (s : String)
deriving DecidableEq, Repr

/-- JavaScript truthiness of a `JSValue` (`null`, `false`, `0` and `""` are
falsy, everything else is truthy). -/
def JSValue.truthy : JSValue → Bool
  | .null => false
  | .bool b => b
  | .num n => n != 0
  | .str s => s != ""

/-- Byte length of a string (UTF-8), written over the character list so that
it evaluates by kernel reduction. -/
def utf8Len (s : String) : Nat :=
  (s.toList.map Char.utf8Size).sum

/-- `JSON.stringify` for scalar values. -/
def JSValue.stringify : JSValue → String
  | .null => "null"
  | .bool b => if b then "true" else "false"
  | .num n => toString n
  | .str s => "\"" ++ s ++ "\""

namespace CacheManager

/-- `CacheEntry<T>` of Cache.ts. Timestamps are milliseconds since epoch. -/
structure CacheEntry where
  value : JSValue
  expiresAt : Nat
  accessCount : Nat
  lastAccessed : Nat
  size : Nat
deriving DecidableEq, Repr

/-- `CacheStats` of Cache.ts. `hitRate` and `memoryUsage` are stored as
exact rationals in place of IEEE doubles. -/
structure CacheStats where
  hits : Nat
  misses : Nat
  sets : Nat
  deletes : Nat
  hitRate : Rat
  memoryUsage : Rat
  totalKeys : Nat
deriving DecidableEq, Repr

/-- `CachePolicy` of Cache.ts. -/
inductive CachePolicy where
  | LRU
  | LFU
  | FIFO
deriving DecidableEq, Repr

/-- `CacheOptions` of Cache.ts. The memory budget is kept in megabytes as in
the source (`maxMemoryMB`); the cleanup interval only schedules the sweep
timer and plays no role in any verified statement, so it is omitted. -/
structure CacheOptions where
  maxSize : Nat
  defaultTTL : Nat
  policy : CachePolicy
  maxMemoryMB : Nat
deriving DecidableEq, Repr

/-- Defaults from the `CacheManager` constructor. -/
def defaultOptions : CacheOptions :=
  { maxSize := 10000, defaultTTL := 300000, policy := .LRU, maxMemoryMB := 100 }

/-- The mutable state of a `CacheManager`: the backing `Map` (an association
list in insertion order, keys unique) plus the statistics record. -/
structure CacheState where
  entries : List (String × CacheEntry)
  stats : CacheStats
deriving DecidableEq, Repr

/-- The all-zero initial statistics record of the constructor. -/
def initialStats : CacheStats :=
  { hits := 0, misses := 0, sets := 0, deletes := 0,
    hitRate := 0, memoryUsage := 0, totalKeys := 0 }

/-- A freshly constructed cache. -/
def initialState : CacheState :=
  { entries := [], stats := initialStats }

/-- `estimateSize`: byte size of the JSON serialisation of the value. -/
def estimateSize (v : JSValue) : Nat :=
  utf8Len v.stringify

/-- Total stored size in bytes (the sum the source divides by 1024·1024 in
`getMemoryUsageMB`). -/
def totalSizeBytes (entries : List (String × CacheEntry)) : Nat :=
  (entries.map (fun kv => kv.2.size)).sum

/-- `getMemoryUsageMB`: total stored size in megabytes, as an exact
rational. -/
def getMemoryUsageMB (entries : List (String × CacheEntry)) : Rat :=
  (totalSizeBytes entries : Rat) / (1024 * 1024)

/-- `updateHitRate`: recompute `hitRate` as a percentage,
`(hits / (hits + misses)) * 100`, and `0` when there has been no request. -/
def updateHitRate (st : CacheStats) : CacheStats :=
  let totalRequests := st.hits + st.misses
  { st with hitRate := if totalRequests > 0
      then ((st.hits : Rat) / (totalRequests : Rat)) * 100 else 0 }

/-- `updateStats`: refresh the derived fields (`totalKeys`, `memoryUsage`)
and the hit rate. -/
def updateStats (entries : List (String × CacheEntry)) (st : CacheStats) : CacheStats :=
  updateHitRate { st with totalKeys := entries.length,
                          memoryUsage := getMemoryUsageMB entries }

/-- Replace the entry stored under `k` in place (JS `Map.set` keeps the
original insertion position of an existing key), appending when absent. -/
def mapSet (k : String) (v : CacheEntry) :
    List (String × CacheEntry) → List (String × CacheEntry)
  | [] => [(k, v)]
  | (k', v') :: rest =>
      if k' = k then (k, v) :: rest else (k', v') :: mapSet k v rest

/-- Remove the entry stored under `k` (JS `Map.delete`; keys are unique in a
`Map`, so deletion is a filter). -/
def mapDelete (k : String) (entries : List (String × CacheEntry)) :
    List (String × CacheEntry) :=
  entries.filter (fun kv => kv.1 ≠ k)

/-- `get(key)` at wall-clock time `now`: miss on absent key, lazy-expiry
deletion and miss when `now > expiresAt`, otherwise a hit that bumps the
entry's `accessCount` and `lastAccessed`. Returns the value (`null` for a
miss, as in the source) and the successor state. -/
def get (now : Nat) (key : String) (s : CacheState) : JSValue × CacheState :=
  match s.entries.lookup key with
  | none =>
      (.null, { s with stats := updateHitRate { s.stats with misses := s.stats.misses + 1 } })
  | some e =>
      if now > e.expiresAt then
        (.null, { entries := mapDelete key s.entries,
                  stats := updateHitRate { s.stats with misses := s.stats.misses + 1 } })
      else
        (e.value,
         { entries := mapSet key
             { e with accessCount := e.accessCount + 1, lastAccessed := now } s.entries,
           stats := updateHitRate { s.stats with hits := s.stats.hits + 1 } })

/-- One step of a stable ascending insertion: place `a` before the first
element strictly below it under `le` never jumps — `a` is inserted after
every earlier element `b` with `le b a` (ties keep the earlier element
first, as JS `Array.prototype.sort` is stable). -/
def orderedInsertB {α : Type} (le : α → α → Bool) (a : α) : List α → List α
  | [] => [a]
  | b :: l => if le b a then b :: orderedInsertB le a l else a :: b :: l

/-- Stable ascending sort by the boolean comparator `le`; models
`Array.prototype.sort((x, y) => keyOf x - keyOf y)` (stable since
ES2019). -/
def sortByB {α : Type} (le : α → α → Bool) : List α → List α
  | [] => []
  | a :: l => orderedInsertB le a (sortByB le l)

/-- The comparator `evictEntries` sorts with, per policy: `lastAccessed`
ascending (LRU), `accessCount` ascending (LFU), `expiresAt - lastAccessed`
ascending (FIFO / default). -/
def evictLE (policy : CachePolicy) (a b : String × CacheEntry) : Bool :=
  match policy with
  | .LRU => a.2.lastAccessed ≤ b.2.lastAccessed
  | .LFU => a.2.accessCount ≤ b.2.accessCount
  | .FIFO => (a.2.expiresAt : Int) - (a.2.lastAccessed : Int)
      ≤ (b.2.expiresAt : Int) - (b.2.lastAccessed : Int)

/-- Number of entries `evictEntries` removes:
`Math.max(1, Math.floor(this.cache.size * 0.1))`. For the list lengths
appearing in this development the double product `n * 0.1` floors to
`n / 10` exactly. -/
def evictCount (entries : List (String × CacheEntry)) : Nat :=
  max 1 (entries.length / 10)

/-- The entries `evictEntries` selects: the first `evictCount` of the
policy-sorted entry array. -/
def evictionVictims (policy : CachePolicy) (entries : List (String × CacheEntry)) :
    List (String × CacheEntry) :=
  (sortByB (evictLE policy) entries).take (evictCount entries)

/-- `evictEntries`: delete the selected victims' keys from the map and count
one delete per removed entry. -/
def evictEntries (policy : CachePolicy) (s : CacheState) : CacheState :=
  let victims := evictionVictims policy s.entries
  let victimKeys := victims.map Prod.fst
  { entries := s.entries.filter (fun kv => !(victimKeys.contains kv.1)),
    stats := { s.stats with deletes := s.stats.deletes + victims.length } }

/-- `set(key, value, ttl)` at wall-clock time `now`: compute `expiresAt` and
the size estimate, evict when the memory budget would be exceeded, evict
when the entry budget is already full, then overwrite/insert the entry and
refresh the statistics. The memory comparison
`getMemoryUsageMB() + size / (1024*1024) > maxMemoryMB` is stated
equivalently over bytes. -/
def set (opts : CacheOptions) (now : Nat) (key : String) (value : JSValue)
    (ttl : Option Nat) (s : CacheState) : CacheState :=
  let expiresAt := now + ttl.getD opts.defaultTTL
  let size := estimateSize value
  let s1 := if totalSizeBytes s.entries + size > opts.maxMemoryMB * (1024 * 1024)
    then evictEntries opts.policy s else s
  let s2 := if s1.entries.length ≥ opts.maxSize then evictEntries opts.policy s1 else s1
  let entry : CacheEntry :=
    { value := value, expiresAt := expiresAt, accessCount := 0,
      lastAccessed := now, size := size }
  { entries := mapSet key entry s2.entries,
    stats := updateStats (mapSet key entry s2.entries)
      { s2.stats with sets := s2.stats.sets + 1 } }

/-- Unanchored test of the regular expression built from the glob pattern
`p ++ "*"` (a literal prefix followed by a single `*`): the source rewrites
`*` to `.*` and calls `RegExp.test`, which searches anywhere in the key, so
the pattern matches exactly when `p` occurs in the key as a substring
(`p` is assumed free of regex metacharacters, as are all keys the
repository builds). -/
def starPatternTest (p : String) (key : String) : Bool :=
  decide (p.toList <:+: key.toList)

/-- `invalidate(pattern)` for a pattern of the shape `p ++ "*"`: remove
every matching key, counting one delete each, then refresh statistics. -/
def invalidate (p : String) (s : CacheState) : CacheState :=
  let keysToDelete := (s.entries.map Prod.fst).filter (starPatternTest p)
  let entries' := s.entries.filter (fun kv => !(starPatternTest p kv.1))
  { entries := entries',
    stats := updateStats entries'
      { s.stats with deletes := s.stats.deletes + keysToDelete.length } }

/-- `clear()`: drop every entry, counting the deletions. -/
def clear (s : CacheState) : CacheState :=
  { entries := [],
    stats := updateStats [] { s.stats with deletes := s.stats.deletes + s.entries.length } }

/-- `cleanup()`: the periodic sweep deleting every expired entry. -/
def cleanup (now : Nat) (s : CacheState) : CacheState :=
  let expired := s.entries.filter (fun kv => now > kv.2.expiresAt)
  let entries' := s.entries.filter (fun kv => !(now > kv.2.expiresAt : Bool))
  { entries := entries',
    stats := updateStats entries'
      { s.stats with deletes := s.stats.deletes + expired.length } }

/-- `stats()`: refresh the derived fields and return the snapshot. -/
def statsFn (s : CacheState) : CacheStats :=
  updateStats s.entries s.stats

/-- One externally invokable cache operation, with its wall-clock time where
the source reads `Date.now()`. -/
inductive CacheOp where
  | get (key : String) (now : Nat)
  | set (key : String) (value : JSValue) (ttl : Option Nat) (now : Nat)
  | invalidate (p : String)
  | clear
  | cleanup (now : Nat)
deriving Repr

/-- State transition of one cache operation (discarding the returned
value). -/
def applyOp (opts : CacheOptions) (s : CacheState) : CacheOp → CacheState
  | .get key now => (CacheManager.get now key s).2
  | .set key v ttl now => CacheManager.set opts now key v ttl s
  | .invalidate p => CacheManager.invalidate p s
  | .clear => CacheManager.clear s
  | .cleanup now => CacheManager.cleanup now s

/-- Run a sequence of cache operations from the freshly constructed
cache. -/
def run (opts : CacheOptions) (ops : List CacheOp) : CacheState :=
  ops.foldl (applyOp opts) initialState

end CacheManager

/-- Lower-casing of a message, as in `error.message.toLowerCase()`. -/
def lowerStr (s : String) : String :=
  String.mk (s.toList.map Char.toLower)

/-- `String.prototype.includes`, over character lists. -/
def strIncludes (hay needle : String) : Bool :=
  decide (needle.toList <:+: hay.toList)

/-- A failed HTTP transport outcome: the HTTP status when one is attached to
the thrown error (`(error as any).status`, which may be `undefined`) and the
error message. -/
structure HttpError where
  status : Option Nat
  message : String
deriving DecidableEq, Repr

/-- Outcome of one REST transport attempt. -/
inductive TransportOutcome (α : Type) where
  | success (payload : α)
  | failure (e : HttpError)
deriving Repr

/-- An observable suspension of the retry loop: an exponential-backoff sleep
of the given duration (milliseconds), or a `waitForRateLimit` suspension
(whose duration depends on the tracked rate-limit snapshot). -/
inductive ExecEvent where
  | backoff (delay : Rat)
  | rateLimitWait
deriving DecidableEq, Repr

/-- Terminal outcome of the retry loop: the returned payload, a
`RateLimitError`, a `GitHubAPIError` wrapping the last cause together with
the number of attempts made, or the unreachable fall-through after the loop
(`throw lastError!`, only reachable when `maxRetries = 0`). -/
inductive ExecResult (α : Type) where
  | ok (payload : α)
  | rateLimited
  | failed (attempts : Nat)
  | exhausted
deriving Repr

namespace RESTClient

/-- `isRateLimitError`: the message mentions rate limiting, or the status is
`403`. -/
def isRateLimitError (e : HttpError) : Bool :=
  let m := lowerStr e.message
  strIncludes m "rate limit" || strIncludes m "exceeded" || e.status == some 403

/-- `isRetryableError`: a timeout/network/connection message or a
500/502/503/504 status. -/
def isRetryableError (e : HttpError) : Bool :=
  let m := lowerStr e.message
  strIncludes m "timeout" || strIncludes m "network" || strIncludes m "connection" ||
    e.status == some 500 || e.status == some 502 || e.status == some 503 ||
    e.status == some 504

/-- `calculateRetryDelay`: exponential backoff plus jitter. The source draws
`Math.random() * 1000`; the drawn uniform sample is passed in explicitly as
`rand ∈ [0, 1)`. -/
def calculateRetryDelay (retryDelay : Rat) (attempt : Nat) (rand : Rat) : Rat :=
  retryDelay * 2 ^ (attempt - 1) + rand * 1000

/-- The attempt loop of `executeRequest`, from attempt number `attempt` with
the suspension events so far. `transport n` is the outcome of the `n`-th
attempt; `rand n` is the jitter sample the `n`-th backoff would draw. -/
def executeRequestGo {α : Type} (maxRetries : Nat) (retryDelay : Rat)
    (transport : Nat → TransportOutcome α) (rand : Nat → Rat)
    (attempt : Nat) (events : List ExecEvent) : ExecResult α × List ExecEvent :=
  if h : attempt ≤ maxRetries then
    match transport attempt with
    | .success p => (.ok p, events)
    | .failure e =>
      if isRateLimitError e then
        if attempt = maxRetries then (.rateLimited, events)
        else executeRequestGo maxRetries retryDelay transport rand (attempt + 1)
          (events ++ [.rateLimitWait])
      else if isRetryableError e && decide (attempt < maxRetries) then
        executeRequestGo maxRetries retryDelay transport rand (attempt + 1)
          (events ++ [.backoff (calculateRetryDelay retryDelay attempt (rand attempt))])
      else (.failed attempt, events)
  else (.exhausted, events)
termination_by maxRetries + 1 - attempt
decreasing_by all_goals omega

/-- `executeRequest`: run the attempt loop from attempt 1. -/
def executeRequest {α : Type} (maxRetries : Nat) (retryDelay : Rat)
    (transport : Nat → TransportOutcome α) (rand : Nat → Rat) :
    ExecResult α × List ExecEvent :=
  executeRequestGo maxRetries retryDelay transport rand 1 []

/-- Body shapes a REST page response can take in `paginate`: a plain array,
an object with a `data` array (and optional `total_count`), or a single
non-array object. -/
inductive RestResponse (α : Type) where
  | arr (items : List α)
  | wrapped (items : List α) (totalCount : Option Nat)
  | single (item : α)
deriving Repr

/-- The `pageData` extracted from one page response in `paginate`. -/
def pageItems {α : Type} : RestResponse α → List α
  | .arr items => items
  | .wrapped items _ => items
  | .single item => [item]

/-- The `pagination` record of a `PaginatedResponse` (the `totalCount`
pass-through field plays no role in any verified statement and is
omitted). -/
structure PaginationInfo where
  page : Nat
  perPage : Nat
  hasNextPage : Bool
  hasPreviousPage : Bool
deriving DecidableEq, Repr

/-- `PaginatedResponse<T>`. -/
structure PaginatedResponse (α : Type) where
  data : List α
  pagination : PaginationInfo
deriving Repr

/-- The `while (hasNextPage && page <= maxPages)` loop of `paginate`:
fetch the page, append its items, set `hasNextPage` to whether the page was
full, and advance the page number. Returns the accumulated items and the
final values of `page` and `hasNextPage`. -/
def paginateGo {α : Type} (fetch : Nat → RestResponse α) (perPage maxPages : Nat)
    (page : Nat) (acc : List α) (hasNext : Bool) : List α × Nat × Bool :=
  if h : hasNext = true ∧ page ≤ maxPages then
    let pageData := pageItems (fetch page)
    paginateGo fetch perPage maxPages (page + 1) (acc ++ pageData)
      (pageData.length == perPage)
  else (acc, page, hasNext)
termination_by maxPages + 1 - page
decreasing_by omega

/-- `paginate` on the pagination-enabled path (the claim under verification
is about paginated reads; the `enablePagination: false` branch performs a
single un-paginated `get`). `fetch n` abstracts the cached read of page `n`
with the supplied parameters; `paramsPage`/`paramsPerPage` are the optional
`params.page` / `params.per_page` (`undefined` and `0` both fall through
the source's `||` defaults, which the `Option` models). -/
def paginate {α : Type} (fetch : Nat → RestResponse α)
    (paramsPage paramsPerPage : Option Nat) (maxPages : Nat) :
    PaginatedResponse α :=
  let perPage := paramsPerPage.getD 30
  let startPage := paramsPage.getD 1
  let r := paginateGo fetch perPage maxPages startPage [] true
  { data := r.1,
    pagination :=
      { page := startPage, perPage := perPage,
        hasNextPage := decide (r.2.1 ≤ maxPages) && r.2.2,
        hasPreviousPage := decide (startPage > 1) } }

/-- Result of the cached GET path: the value returned to the caller, whether
an upstream request was issued, and the cache state afterwards. -/
structure GetResult where
  value : JSValue
  fetchedUpstream : Bool
  cacheState : CacheManager.CacheState
deriving Repr

/-- `RESTClient.get` for a GET request whose deterministic cache key is
`key`: when caching applies, consult the cache and return the cached value
only if it is truthy (`if (cached)`); otherwise issue the upstream request
(whose response data is `upstream`), store it under the key, and return it.
`cacheTTL` is the effective TTL passed to `cache.set`. -/
def get (enableCaching useCache : Bool) (opts : CacheManager.CacheOptions)
    (cacheTTL : Option Nat) (now : Nat) (key : String) (upstream : JSValue)
    (s : CacheManager.CacheState) : GetResult :=
  if enableCaching && useCache then
    let r := CacheManager.get now key s
    if r.1.truthy then
      { value := r.1, fetchedUpstream := false, cacheState := r.2 }
    else
      { value := upstream, fetchedUpstream := true,
        cacheState := CacheManager.set opts now key upstream cacheTTL r.2 }
  else
    { value := upstream, fetchedUpstream := true, cacheState := s }

end RESTClient

namespace GraphQLClient

/-- `isRateLimitError` of the GraphQL client: purely message-based. -/
def isRateLimitError (msg : String) : Bool :=
  let m := lowerStr msg
  strIncludes m "rate limit" || strIncludes m "exceeded" ||
    (strIncludes m "403" && strIncludes m "limit")

/-- `isRetryableError` of the GraphQL client: purely message-based. -/
def isRetryableError (msg : String) : Bool :=
  let m := lowerStr msg
  strIncludes m "timeout" || strIncludes m "network" || strIncludes m "connection" ||
    strIncludes m "500" || strIncludes m "502" || strIncludes m "503" ||
    strIncludes m "504"

/-- `calculateRetryDelay` of the GraphQL client: plain exponential backoff,
with no jitter term. -/
def calculateRetryDelay (retryDelay : Rat) (attempt : Nat) : Rat :=
  retryDelay * 2 ^ (attempt - 1)

/-- Outcome of one GraphQL transport attempt: a response carrying data and a
(possibly empty) structured error list, or a thrown transport error with the
given message. -/
inductive GqlOutcome (α : Type) where
  | response (data : α) (errors : List String)
  | failure (msg : String)
deriving Repr

/-- Message of the `GitHubAPIError` thrown when a transport-successful
response carries structured GraphQL errors. -/
def gqlErrorsMessage (errors : List String) : String :=
  "GraphQL errors: " ++ String.intercalate ", " errors

/-- The attempt loop of `executeQuery`. A response with a non-empty
`errors[]` list is thrown inside the `try` and therefore classified like
any other failure of the attempt, using the thrown message. -/
def executeQueryGo {α : Type} (maxRetries : Nat) (retryDelay : Rat)
    (transport : Nat → GqlOutcome α) (attempt : Nat) (events : List ExecEvent) :
    ExecResult α × List ExecEvent :=
  if h : attempt ≤ maxRetries then
    match (match transport attempt with
           | .response d errors =>
               if errors.isEmpty then Except.ok d
               else Except.error (gqlErrorsMessage errors)
           | .failure msg => Except.error msg : Except String α) with
    | .ok d => (.ok d, events)
    | .error msg =>
      if isRateLimitError msg then
        if attempt = maxRetries then (.rateLimited, events)
        else executeQueryGo maxRetries retryDelay transport (attempt + 1)
          (events ++ [.rateLimitWait])
      else if isRetryableError msg && decide (attempt < maxRetries) then
        executeQueryGo maxRetries retryDelay transport (attempt + 1)
          (events ++ [.backoff (calculateRetryDelay retryDelay attempt)])
      else (.failed attempt, events)
  else (.exhausted, events)
termination_by maxRetries + 1 - attempt
decreasing_by all_goals omega

/-- `executeQuery`: run the attempt loop from attempt 1. -/
def executeQuery {α : Type} (maxRetries : Nat) (retryDelay : Rat)
    (transport : Nat → GqlOutcome α) : ExecResult α × List ExecEvent :=
  executeQueryGo maxRetries retryDelay transport 1 []

/-- How one queued query was settled: resolved with its slot of the combined
response (`results[index]`, which is `none` when the alias is absent),
rejected with the error of its flush batch, or rejected at `destroy` with
the "GraphQL client destroyed" error. -/
inductive SettleKind (ε ρ : Type) where
  | resolved (r : Option ρ)
  | rejected (e : ε)
  | destroyed
deriving DecidableEq, Repr

/-- State of the batching queue. Each `QueuedQuery` is identified by the
order of its creation (`nextId` counts the queries enqueued so far); JS
object identity makes distinct queued queries distinct, which the counter
models. `settled` is the log of every `resolve`/`reject` call made, in
order. -/
structure BatchState (ε ρ : Type) where
  queue : List Nat
  nextId : Nat
  settled : List (Nat × SettleKind ε ρ)
deriving Repr

/-- The empty queue of a freshly constructed client. -/
def initialBatchState (ε ρ : Type) : BatchState ε ρ :=
  { queue := [], nextId := 0, settled := [] }

/-- `processBatch` with the given outcome of the combined request: drain up
to `maxBatchSize` queued items; on success resolve item `i` with
`results[i]`, on failure reject every drained item with the same error. -/
def processBatch {ε ρ : Type} (maxBatchSize : Nat) (outcome : Except ε (List ρ))
    (s : BatchState ε ρ) : BatchState ε ρ :=
  let batch := s.queue.take maxBatchSize
  let rest := s.queue.drop maxBatchSize
  match outcome with
  | .ok results =>
      { queue := rest, nextId := s.nextId,
        settled := s.settled ++ batch.enum.map (fun p => (p.2, .resolved (results.get? p.1))) }
  | .error e =>
      { queue := rest, nextId := s.nextId,
        settled := s.settled ++ batch.map (fun id => (id, .rejected e)) }

/-- `addToBatch`: append the new query to the queue; if the queue has
reached `maxBatchSize`, flush immediately (the outcome the flush's combined
request will produce is supplied by the event); otherwise the flush timer is
(re-)armed, which the event trace models by a later `timerFlush` event. -/
def addToBatch {ε ρ : Type} (maxBatchSize : Nat) (outcome : Except ε (List ρ))
    (s : BatchState ε ρ) : BatchState ε ρ :=
  let s' : BatchState ε ρ :=
    { queue := s.queue ++ [s.nextId], nextId := s.nextId + 1, settled := s.settled }
  if s'.queue.length ≥ maxBatchSize then processBatch maxBatchSize outcome s' else s'

/-- `destroy`: clear the flush timer, reject every still-queued item with
the "GraphQL client destroyed" error and empty the queue. -/
def destroy {ε ρ : Type} (s : BatchState ε ρ) : BatchState ε ρ :=
  { queue := [], nextId := s.nextId,
    settled := s.settled ++ s.queue.map (fun id => (id, .destroyed)) }

/-- Externally triggered events of the batching queue: a query submission
(carrying the outcome its flush would produce, if this submission fills the
batch), a flush-timer expiry, and client shutdown. -/
inductive BatchEvent (ε ρ : Type) where
  | enqueue (outcome : Except ε (List ρ))
  | timerFlush (outcome : Except ε (List ρ))
  | destroy

/-- State transition of one batching event. -/
def batchStep {ε ρ : Type} (maxBatchSize : Nat) (s : BatchState ε ρ) :
    BatchEvent ε ρ → BatchState ε ρ
  | .enqueue outcome => addToBatch maxBatchSize outcome s
  | .timerFlush outcome => processBatch maxBatchSize outcome s
  | .destroy => destroy s

/-- Run a sequence of batching events on a freshly constructed client. -/
def runBatch {ε ρ : Type} (maxBatchSize : Nat) (evs : List (BatchEvent ε ρ)) :
    BatchState ε ρ :=
  evs.foldl (batchStep maxBatchSize) (initialBatchState ε ρ)

end GraphQLClient


/-! Concrete instances used by the witnesses and counterexamples below. -/

def demoCacheC7 : CacheManager.CacheState :=
  { entries := [("k", ⟨.num 5, 1000, 0, 0, 1⟩)], stats := CacheManager.initialStats }

def demoCacheC2 : CacheManager.CacheState :=
  { entries := [("issue:1", ⟨.num 1, 1000, 0, 0, 1⟩),
                ("re-issue:7", ⟨.num 2, 1000, 0, 0, 1⟩)],
    stats := CacheManager.initialStats }

def demoCacheC10 : CacheManager.CacheState :=
  { entries := [("k", ⟨.num 0, 1000000, 0, 0, 1⟩)], stats := CacheManager.initialStats }

def demoOpsC3 : List CacheManager.CacheOp :=
  [.set "k" (.num 1) none 0, .get "k" 1]

def optsC4 : CacheManager.CacheOptions :=
  { maxSize := 20, defaultTTL := 1000, policy := .LRU, maxMemoryMB := 100 }

def demoCacheC4 : CacheManager.CacheState :=
  { entries := (List.range 20).map (fun i => (toString i, ⟨.null, 1000000, 0, i, 4⟩)),
    stats := CacheManager.initialStats }

def demoBatchC8 : GraphQLClient.BatchState Nat Nat :=
  { queue := [0, 1, 2], nextId := 3, settled := [] }

/-- Ghost observer for the batching queue: the ids recorded in the
settlement log followed by the ids still queued. Every id the client ever
allocated occurs here exactly once — the invariant behind the
settled-exactly-once property. -/
def settledOrQueuedIds {ε ρ : Type} (s : GraphQLClient.BatchState ε ρ) : List Nat :=
  s.settled.map Prod.fst ++ s.queue

/-! Helper lemmas about the stable insertion sort and the association-list
operations, shared by the theorems below. -/

theorem orderedInsertB_perm {α : Type} (le : α → α → Bool) (a : α) :
    ∀ l : List α, (CacheManager.orderedInsertB le a l).Perm (a :: l) := by
  intro l
  induction l with
  | nil => simp [CacheManager.orderedInsertB]
  | cons b t ih =>
    simp only [CacheManager.orderedInsertB]
    split
    · exact (ih.cons b).trans (List.Perm.swap a b t)
    · exact List.Perm.refl _

theorem sortByB_perm {α : Type} (le : α → α → Bool) :
    ∀ l : List α, (CacheManager.sortByB le l).Perm l := by
  intro l
  induction l with
  | nil => exact List.Perm.refl _
  | cons a t ih =>
    exact (orderedInsertB_perm le a (CacheManager.sortByB le t)).trans (ih.cons a)

theorem pairwise_orderedInsertB {α : Type} (le : α → α → Bool)
    (htrans : ∀ a b c, le a b = true → le b c = true → le a c = true)
    (htot : ∀ a b, le a b = true ∨ le b a = true) (a : α) :
    ∀ l : List α, l.Pairwise (fun x y => le x y = true) →
      (CacheManager.orderedInsertB le a l).Pairwise (fun x y => le x y = true) := by
  intro l
  induction l with
  | nil =>
    intro _
    simp [CacheManager.orderedInsertB]
  | cons b t ih =>
    intro hp
    rw [List.pairwise_cons] at hp
    obtain ⟨hb, ht⟩ := hp
    simp only [CacheManager.orderedInsertB]
    split
    case isTrue hba =>
      rw [List.pairwise_cons]
      refine ⟨?_, ih ht⟩
      intro x hx
      rcases List.mem_cons.mp ((orderedInsertB_perm le a t).mem_iff.mp hx) with rfl | hxt
      · exact hba
      · exact hb x hxt
    case isFalse hba =>
      have hab : le a b = true := (htot a b).resolve_right (by simpa using hba)
      rw [List.pairwise_cons]
      refine ⟨?_, List.pairwise_cons.mpr ⟨hb, ht⟩⟩
      intro x hx
      rcases List.mem_cons.mp hx with rfl | hxt
      · exact hab
      · exact htrans a b x hab (hb x hxt)

theorem pairwise_sortByB {α : Type} (le : α → α → Bool)
    (htrans : ∀ a b c, le a b = true → le b c = true → le a c = true)
    (htot : ∀ a b, le a b = true ∨ le b a = true) :
    ∀ l : List α, (CacheManager.sortByB le l).Pairwise (fun x y => le x y = true) := by
  intro l
  induction l with
  | nil => simp [CacheManager.sortByB]
  | cons a t ih =>
    exact pairwise_orderedInsertB le htrans htot a _ ih

theorem lookup_mapDelete (k : String) :
    ∀ entries : List (String × CacheManager.CacheEntry),
      (CacheManager.mapDelete k entries).lookup k = none := by
  intro entries
  induction entries with
  | nil => rfl
  | cons kv rest ih =>
    by_cases h : kv.1 = k
    · simpa [CacheManager.mapDelete, h] using ih
    · have h' : (k == kv.1) = false := beq_eq_false_iff_ne.mpr (Ne.symm h)
      simpa [CacheManager.mapDelete, h, List.lookup, h'] using ih

theorem lookup_mapSet (k : String) (v : CacheManager.CacheEntry) :
    ∀ entries : List (String × CacheManager.CacheEntry),
      (CacheManager.mapSet k v entries).lookup k = some v := by
  intro entries
  induction entries with
  | nil => simp [CacheManager.mapSet, List.lookup]
  | cons kv rest ih =>
    by_cases h : kv.1 = k
    · simp [CacheManager.mapSet, h, List.lookup]
    · have h' : (k == kv.1) = false := beq_eq_false_iff_ne.mpr (Ne.symm h)
      simpa [CacheManager.mapSet, h, List.lookup, h'] using ih

theorem lookup_set_value (opts : CacheManager.CacheOptions) (now : Nat) (key : String)
    (v : JSValue) (ttl : Option Nat) (s : CacheManager.CacheState) :
    ∃ e', (CacheManager.set opts now key v ttl s).entries.lookup key = some e'
      ∧ e'.value = v := by
  exact ⟨_, lookup_mapSet key _ _, rfl⟩

/-! ## C7 -/

/-- C7: `CacheManager.get` never serves an expired entry. Whenever the
current time strictly exceeds the entry's `expiresAt`, the read is a miss
that also deletes the entry (lazy expiry on the read path itself, so the
background sweep is not needed), and any non-null value returned by `get`
comes from an entry whose `expiresAt` has not been passed. -/
theorem C7_get_never_returns_expired :
    (∀ (s : CacheManager.CacheState) (key : String) (now : Nat)
        (e : CacheManager.CacheEntry),
        s.entries.lookup key = some e → now > e.expiresAt →
        (CacheManager.get now key s).1 = JSValue.null
        ∧ (CacheManager.get now key s).2.entries.lookup key = none)
    ∧ (∀ (s : CacheManager.CacheState) (key : String) (now : Nat),
        (CacheManager.get now key s).1 ≠ JSValue.null →
        ∃ e, s.entries.lookup key = some e ∧ now ≤ e.expiresAt
          ∧ (CacheManager.get now key s).1 = e.value) := by
  constructor
  · intro s key now e hlook hexp
    simp only [CacheManager.get, hlook]
    rw [if_pos hexp]
    exact ⟨rfl, lookup_mapDelete key s.entries⟩
  · intro s key now hne
    rcases hlk : s.entries.lookup key with _ | e
    · simp [CacheManager.get, hlk] at hne
    · by_cases hexp : now > e.expiresAt
      · simp [CacheManager.get, hlk, hexp] at hne
      · exact ⟨e, rfl, by omega, by simp [CacheManager.get, hlk, hexp]⟩


/-- Witness for C7: an entry that expired at time 1000, read at time
2000, is absent and deleted. -/
theorem C7_witness :
    (CacheManager.get 2000 "k" demoCacheC7).1 = JSValue.null
    ∧ (CacheManager.get 2000 "k" demoCacheC7).2.entries.lookup "k" = none :=
  C7_get_never_returns_expired.1 demoCacheC7 "k" 2000 ⟨.num 5, 1000, 0, 0, 1⟩
    (by decide) (by decide)

/-! ## C2 -/


/-- C2 counterexample: `invalidate("issue:*")` removes the key
`"re-issue:7"` even though it does not start with `"issue:"` — the source
tests the rewritten regex unanchored, so the pattern matches substrings,
not only prefixes. -/
theorem C2_counterexample :
    (CacheManager.invalidate "issue:" demoCacheC2).entries.lookup "re-issue:7" = none
    ∧ ("issue:".toList.isPrefixOf "re-issue:7".toList) = false := by
  decide

/-- C2 (amended): for a pattern built from a fixed literal prefix `p`
followed by a single `*`, `invalidate` removes exactly the keys that
contain `p` as a substring. In particular every key with prefix `p` is
removed, but a key containing `p` in the middle is removed as well. -/
theorem C2_invalidate_removes_substring_matches :
    ∀ (p : String) (s : CacheManager.CacheState)
      (kv : String × CacheManager.CacheEntry),
      kv ∈ s.entries →
      ((kv ∈ (CacheManager.invalidate p s).entries ↔ ¬ p.toList <:+: kv.1.toList)
       ∧ (p.toList <+: kv.1.toList → kv ∉ (CacheManager.invalidate p s).entries)) := by
  intro p s kv hmem
  constructor
  · simp [CacheManager.invalidate, List.mem_filter, hmem, CacheManager.starPatternTest]
  · intro hpre hmem'
    have hinf : p.toList <:+: kv.1.toList := by
      obtain ⟨t, ht⟩ := hpre
      exact ⟨[], t, by simpa using ht⟩
    simp [CacheManager.invalidate, List.mem_filter, CacheManager.starPatternTest] at hmem'
    exact hmem'.2 hinf

/-- Witness for C2 (amended): the prefixed key `"issue:1"` is indeed
removed by `invalidate("issue:*")`. -/
theorem C2_witness :
    (("issue:1", (⟨.num 1, 1000, 0, 0, 1⟩ : CacheManager.CacheEntry))
      ∉ (CacheManager.invalidate "issue:" demoCacheC2).entries) :=
  (C2_invalidate_removes_substring_matches "issue:" demoCacheC2
    ("issue:1", ⟨.num 1, 1000, 0, 0, 1⟩) (by decide)).2 (by decide)

/-! ## C10 -/

/-- C10: the cached GET path of `RESTClient.get` guards the cache hit with
JS truthiness (`if (cached)`), so an entry holding a falsy value (`0`,
`""`, `false`, `null`) is treated as a miss: the upstream request is issued
again, its response is returned, and the entry is overwritten with the
fresh response. -/
theorem C10_falsy_cached_value_refetched :
    ∀ (opts : CacheManager.CacheOptions) (cacheTTL : Option Nat) (now : Nat)
      (key : String) (upstream : JSValue) (s : CacheManager.CacheState)
      (e : CacheManager.CacheEntry),
      s.entries.lookup key = some e → now ≤ e.expiresAt → e.value.truthy = false →
      (RESTClient.get true true opts cacheTTL now key upstream s).fetchedUpstream = true
      ∧ (RESTClient.get true true opts cacheTTL now key upstream s).value = upstream
      ∧ ∃ e', (RESTClient.get true true opts cacheTTL now key upstream
            s).cacheState.entries.lookup key = some e'
          ∧ e'.value = upstream := by
  intro opts ttl now key upstream s e hlook hfresh hfalsy
  have hexp : ¬ now > e.expiresAt := by omega
  simp only [RESTClient.get, Bool.and_self, if_true, CacheManager.get, hlook]
  rw [if_neg hexp]
  simp only [hfalsy, Bool.false_eq_true, if_false]
  exact ⟨trivial, trivial, lookup_set_value opts now key upstream ttl _⟩


/-- Witness for C10: a cached `0` under key `"k"` is not served; the
upstream response `7` is fetched, returned and stored. -/
theorem C10_witness :
    (RESTClient.get true true CacheManager.defaultOptions none 100 "k" (.num 7)
        demoCacheC10).fetchedUpstream = true
    ∧ (RESTClient.get true true CacheManager.defaultOptions none 100 "k" (.num 7)
        demoCacheC10).value = JSValue.num 7
    ∧ ∃ e', (RESTClient.get true true CacheManager.defaultOptions none 100 "k" (.num 7)
          demoCacheC10).cacheState.entries.lookup "k" = some e'
        ∧ e'.value = JSValue.num 7 :=
  C10_falsy_cached_value_refetched CacheManager.defaultOptions none 100 "k" (.num 7)
    demoCacheC10 ⟨.num 0, 1000000, 0, 0, 1⟩ (by decide) (by decide) (by decide)

/-! ## C3 -/

theorem updateHitRate_hitRate (st : CacheManager.CacheStats) :
    (CacheManager.updateHitRate st).hitRate =
      if 0 < (CacheManager.updateHitRate st).hits + (CacheManager.updateHitRate st).misses
      then (((CacheManager.updateHitRate st).hits : Rat) /
            (((CacheManager.updateHitRate st).hits : Rat)
              + ((CacheManager.updateHitRate st).misses : Rat))) * 100
      else 0 := by
  simp [CacheManager.updateHitRate]

theorem applyOp_stats_shape (opts : CacheManager.CacheOptions)
    (s : CacheManager.CacheState) (op : CacheManager.CacheOp) :
    ∃ st, (CacheManager.applyOp opts s op).stats = CacheManager.updateHitRate st := by
  cases op with
  | get key now =>
    simp only [CacheManager.applyOp, CacheManager.get]
    rcases s.entries.lookup key with _ | e
    · exact ⟨_, rfl⟩
    · dsimp only
      split
      · exact ⟨_, rfl⟩
      · exact ⟨_, rfl⟩
  | set key v ttl now =>
    simp only [CacheManager.applyOp, CacheManager.set, CacheManager.updateStats]
    exact ⟨_, rfl⟩
  | invalidate p =>
    simp only [CacheManager.applyOp, CacheManager.invalidate, CacheManager.updateStats]
    exact ⟨_, rfl⟩
  | clear =>
    simp only [CacheManager.applyOp, CacheManager.clear, CacheManager.updateStats]
    exact ⟨_, rfl⟩
  | cleanup now =>
    simp only [CacheManager.applyOp, CacheManager.cleanup, CacheManager.updateStats]
    exact ⟨_, rfl⟩

/-- C3 (amended): the reported hit rate is the *percentage*
`(hits / (hits + misses)) * 100` — the source multiplies the claimed ratio
by 100 — and `0` when no request has been made. This holds for the snapshot
`stats()` returns on any state, and for the internal statistics after every
sequence of cache operations. -/
theorem C3_hitRate_is_percentage :
    (∀ s : CacheManager.CacheState,
      (CacheManager.statsFn s).hitRate =
        if 0 < (CacheManager.statsFn s).hits + (CacheManager.statsFn s).misses
        then (((CacheManager.statsFn s).hits : Rat) /
              (((CacheManager.statsFn s).hits : Rat)
                + ((CacheManager.statsFn s).misses : Rat))) * 100
        else 0)
    ∧ (∀ (opts : CacheManager.CacheOptions) (ops : List CacheManager.CacheOp),
      (CacheManager.run opts ops).stats.hitRate =
        if 0 < (CacheManager.run opts ops).stats.hits + (CacheManager.run opts ops).stats.misses
        then (((CacheManager.run opts ops).stats.hits : Rat) /
              (((CacheManager.run opts ops).stats.hits : Rat)
                + ((CacheManager.run opts ops).stats.misses : Rat))) * 100
        else 0) := by
  constructor
  · intro s
    exact updateHitRate_hitRate _
  · intro opts ops
    induction ops using List.reverseRecOn with
    | nil => simp [CacheManager.run, CacheManager.initialState, CacheManager.initialStats]
    | append_singleton ops op _ =>
      have hshape := applyOp_stats_shape opts (CacheManager.run opts ops) op
      obtain ⟨st, hst⟩ := hshape
      have hrun : CacheManager.run opts (ops ++ [op])
          = CacheManager.applyOp opts (CacheManager.run opts ops) op := by
        simp [CacheManager.run, List.foldl_append]
      rw [hrun, hst]
      exact updateHitRate_hitRate st


/-- C3 counterexample: after one `set` and one hitting `get` the stats
report `hits = 1`, `misses = 0` and `hitRate = 100` (a percentage), which
differs from the claimed `hits / (hits + misses) = 1`. -/
theorem C3_counterexample :
    (CacheManager.statsFn (CacheManager.run CacheManager.defaultOptions demoOpsC3)).hits = 1
    ∧ (CacheManager.statsFn (CacheManager.run CacheManager.defaultOptions demoOpsC3)).misses = 0
    ∧ (CacheManager.statsFn (CacheManager.run CacheManager.defaultOptions demoOpsC3)).hitRate
        ≠ ((CacheManager.statsFn (CacheManager.run CacheManager.defaultOptions demoOpsC3)).hits : Rat)
          / (((CacheManager.statsFn (CacheManager.run CacheManager.defaultOptions demoOpsC3)).hits : Rat)
             + ((CacheManager.statsFn (CacheManager.run CacheManager.defaultOptions demoOpsC3)).misses : Rat)) := by
  have hh : (CacheManager.statsFn (CacheManager.run CacheManager.defaultOptions demoOpsC3)).hits = 1 := by
    decide
  have hm : (CacheManager.statsFn (CacheManager.run CacheManager.defaultOptions demoOpsC3)).misses = 0 := by
    decide
  have hr : (CacheManager.statsFn (CacheManager.run CacheManager.defaultOptions demoOpsC3)).hitRate = 100 := by
    simp +decide [CacheManager.statsFn, CacheManager.run, demoOpsC3, CacheManager.applyOp,
      CacheManager.set, CacheManager.get, CacheManager.updateStats, CacheManager.updateHitRate,
      CacheManager.initialState, CacheManager.initialStats, CacheManager.estimateSize,
      CacheManager.totalSizeBytes, CacheManager.getMemoryUsageMB, CacheManager.defaultOptions,
      CacheManager.mapSet, utf8Len, JSValue.stringify]
  refine ⟨hh, hm, ?_⟩
  rw [hr, hh, hm]
  norm_num

/-! ## C4 -/

theorem evictLE_trans (policy : CacheManager.CachePolicy) :
    ∀ a b c, CacheManager.evictLE policy a b = true →
      CacheManager.evictLE policy b c = true → CacheManager.evictLE policy a c = true := by
  intro a b c
  cases policy <;> simp [CacheManager.evictLE] <;> omega

theorem evictLE_total (policy : CacheManager.CachePolicy) :
    ∀ a b, CacheManager.evictLE policy a b = true ∨ CacheManager.evictLE policy b a = true := by
  intro a b
  cases policy <;> simp [CacheManager.evictLE] <;> omega

/-- C4 (amended): one eviction pass removes a fixed-size batch of
`max(1, ⌊n/10⌋)` entries (capped at the number of entries) — a batch that
can be larger than necessary to satisfy the budget — and the removed batch
consists of lowest-priority entries under the active policy: every evicted
entry compares at-or-below every retained entry under the policy's
comparator (oldest `lastAccessed` first for LRU, smallest `accessCount`
first for LFU). -/
theorem C4_eviction_batch_lowest_priority :
    ∀ (policy : CacheManager.CachePolicy) (s : CacheManager.CacheState),
      (CacheManager.evictionVictims policy s.entries).length
        = min (max 1 (s.entries.length / 10)) s.entries.length
      ∧ (∀ e ∈ CacheManager.evictionVictims policy s.entries,
          ∀ r ∈ (CacheManager.evictEntries policy s).entries,
            CacheManager.evictLE policy e r = true) := by
  intro policy s
  constructor
  · simp [CacheManager.evictionVictims, CacheManager.evictCount, List.length_take,
      (sortByB_perm (CacheManager.evictLE policy) s.entries).length_eq]
  · intro e he r hr
    obtain ⟨hrs, hrpred⟩ := List.mem_filter.mp hr
    have hrcont : ((CacheManager.evictionVictims policy s.entries).map Prod.fst).contains r.1
        = false := by
      simpa [Bool.not_eq_true'] using hrpred
    have hrsorted : r ∈ CacheManager.sortByB (CacheManager.evictLE policy) s.entries :=
      ((sortByB_perm (CacheManager.evictLE policy) s.entries).mem_iff).mpr hrs
    have hpw : (CacheManager.sortByB (CacheManager.evictLE policy) s.entries).Pairwise
        (fun a b => CacheManager.evictLE policy a b = true) :=
      pairwise_sortByB (CacheManager.evictLE policy) (evictLE_trans policy)
        (evictLE_total policy) s.entries
    rw [← List.take_append_drop (CacheManager.evictCount s.entries)
      (CacheManager.sortByB (CacheManager.evictLE policy) s.entries)] at hpw hrsorted
    have hcross := (List.pairwise_append.mp hpw).2.2
    rcases List.mem_append.mp hrsorted with htake | hdrop
    · exfalso
      have hmemkeys : r.1 ∈ (CacheManager.evictionVictims policy s.entries).map Prod.fst :=
        List.mem_map_of_mem Prod.fst htake
      have htrue : ((CacheManager.evictionVictims policy s.entries).map Prod.fst).contains r.1
          = true := List.elem_eq_true_of_mem hmemkeys
      rw [htrue] at hrcont
      exact Bool.true_eq_false.mp hrcont
    · exact hcross e he r hdrop

/-- C4 counterexample: with 20 entries and `maxSize = 20`, inserting one
new key needs only 1 eviction to satisfy the entry budget
(`20 - 1 + 1 ≤ 20`), but the cache ends with 19 entries — the batch evicted
`max(1, ⌊20·0.1⌋) = 2` entries, more than necessary. -/
theorem C4_counterexample :
    demoCacheC4.entries.length = 20
    ∧ optsC4.maxSize = 20
    ∧ (CacheManager.set optsC4 100 "new" .null none demoCacheC4).entries.length = 19
    ∧ 20 - 1 + 1 ≤ optsC4.maxSize := by
  decide

/-- Witness for C4 (amended): in the concrete 20-entry LRU cache the evicted
entry with `lastAccessed = 0` compares at-or-below the retained entry with
`lastAccessed = 5`. -/
theorem C4_witness :
    CacheManager.evictLE .LRU ("0", ⟨.null, 1000000, 0, 0, 4⟩)
      ("5", ⟨.null, 1000000, 0, 5, 4⟩) = true :=
  (C4_eviction_batch_lowest_priority .LRU demoCacheC4).2
    ("0", ⟨.null, 1000000, 0, 0, 4⟩) (by decide)
    ("5", ⟨.null, 1000000, 0, 5, 4⟩) (by decide)

/-! ## C1 -/

theorem paginateGo_stop {α : Type} (fetch : Nat → RESTClient.RestResponse α)
    (perPage maxPages : Nat) :
    ∀ (fuel page : Nat), maxPages + 1 - page ≤ fuel → ∀ (acc : List α) (hasNext : Bool),
      ¬((RESTClient.paginateGo fetch perPage maxPages page acc hasNext).2.2 = true
        ∧ (RESTClient.paginateGo fetch perPage maxPages page acc hasNext).2.1 ≤ maxPages) := by
  intro fuel
  induction fuel with
  | zero =>
    intro page hle acc hasNext
    rw [RESTClient.paginateGo]
    split
    case isTrue h => exact absurd h.2 (by omega)
    case isFalse h => simpa using h
  | succ n ih =>
    intro page hle acc hasNext
    rw [RESTClient.paginateGo]
    split
    case isTrue h => exact ih (page + 1) (by omega) _ _
    case isFalse h => simpa using h

/-- C1 (code bug): the `hasNextPage` flag `RESTClient.paginate` returns is
provably `false` for every fetch function and every parameter choice — the
source computes it as `page <= maxPages && hasNextPage` *after* a loop
whose guard is exactly `hasNextPage && page <= maxPages`, so the expression
can never be true. In particular, when the page cap is the stopping reason
(here: `per_page = 2`, `maxPages = 1`, the single fetched page full), the
flag is still `false`, although the cap — not the data — stopped the
pagination. -/
theorem C1_paginate_hasNextPage_always_false :
    (∀ (α : Type) (fetch : Nat → RESTClient.RestResponse α)
        (paramsPage paramsPerPage : Option Nat) (maxPages : Nat),
        (RESTClient.paginate fetch paramsPage paramsPerPage maxPages).pagination.hasNextPage
          = false)
    ∧ (RESTClient.paginate (fun _ => .arr [(0 : Nat), 1]) none (some 2) 1).data = [0, 1]
    ∧ (RESTClient.paginate (fun _ => .arr [(0 : Nat), 1]) none
        (some 2) 1).pagination.hasNextPage = false := by
  refine ⟨?_, ?_, ?_⟩
  · intro α fetch pp ppp maxPages
    have h := paginateGo_stop fetch (ppp.getD 30) maxPages (maxPages + 1) (pp.getD 1)
      (by omega) [] true
    simp only [RESTClient.paginate]
    by_cases h2 : (RESTClient.paginateGo fetch (ppp.getD 30) maxPages (pp.getD 1) [] true).2.2
        = true
    · have h3 : ¬ (RESTClient.paginateGo fetch (ppp.getD 30) maxPages
          (pp.getD 1) [] true).2.1 ≤ maxPages := fun hle => h ⟨h2, hle⟩
      simp [h3]
    · simp only [Bool.not_eq_true] at h2
      simp [h2]
  · simp [RESTClient.paginate, RESTClient.paginateGo, RESTClient.pageItems]
  · simp [RESTClient.paginate, RESTClient.paginateGo, RESTClient.pageItems]

/-! ## C5 -/

/-- C5 (amended): on a retryable (non-rate-limit) transport failure at
attempt `n` with attempts remaining, the REST executor sleeps
`baseRetryDelayMs * 2^(n-1) + rand·1000` (jitter drawn uniformly from
`[0, 1000)`), while the GraphQL executor sleeps exactly
`baseRetryDelayMs * 2^(n-1)` — its `calculateRetryDelay` has no jitter
term. -/
theorem C5_backoff_delay_formulas :
    (∀ (α : Type) (maxRetries : Nat) (retryDelay : Rat)
        (transport : Nat → TransportOutcome α) (rand : Nat → Rat)
        (attempt : Nat) (events : List ExecEvent) (e : HttpError),
        transport attempt = .failure e →
        RESTClient.isRateLimitError e = false →
        RESTClient.isRetryableError e = true →
        attempt < maxRetries →
        RESTClient.executeRequestGo maxRetries retryDelay transport rand attempt events
          = RESTClient.executeRequestGo maxRetries retryDelay transport rand (attempt + 1)
              (events ++ [.backoff (retryDelay * 2 ^ (attempt - 1) + rand attempt * 1000)]))
    ∧ (∀ (α : Type) (maxRetries : Nat) (retryDelay : Rat)
        (transport : Nat → GraphQLClient.GqlOutcome α)
        (attempt : Nat) (events : List ExecEvent) (msg : String),
        transport attempt = .failure msg →
        GraphQLClient.isRateLimitError msg = false →
        GraphQLClient.isRetryableError msg = true →
        attempt < maxRetries →
        GraphQLClient.executeQueryGo maxRetries retryDelay transport attempt events
          = GraphQLClient.executeQueryGo maxRetries retryDelay transport (attempt + 1)
              (events ++ [.backoff (retryDelay * 2 ^ (attempt - 1))])) := by
  constructor
  · intro α maxRetries retryDelay transport rand attempt events e htr hrl hre hlt
    conv_lhs => rw [RESTClient.executeRequestGo]
    have hle : attempt ≤ maxRetries := by omega
    simp [hle, htr, hrl, hre, hlt, RESTClient.calculateRetryDelay]
  · intro α maxRetries retryDelay transport attempt events msg htr hrl hre hlt
    conv_lhs => rw [GraphQLClient.executeQueryGo]
    have hle : attempt ≤ maxRetries := by omega
    simp [hle, htr, hrl, hre, hlt, GraphQLClient.calculateRetryDelay]

/-- C5 counterexample: on the first failure (a retryable
"503 Service Unavailable") the GraphQL executor's recorded backoff is
exactly 1000 ms — `1000 · 2^0` with no jitter — whereas the claimed formula
with the drawn jitter sample `1/2` would be 1500 ms. -/
theorem C5_counterexample :
    (GraphQLClient.executeQuery 3 1000
        (fun n => if n = 1 then .failure "503 Service Unavailable"
                  else .response (42 : Nat) [])).2
      = [ExecEvent.backoff 1000]
    ∧ (1000 : Rat) ≠ 1000 * 2 ^ (1 - 1) + (1 / 2) * 1000 := by
  constructor
  · simp +decide [GraphQLClient.executeQuery, GraphQLClient.executeQueryGo.eq_def,
      GraphQLClient.calculateRetryDelay, GraphQLClient.gqlErrorsMessage]
  · norm_num

/-- Witness for C5: one concrete retryable failure for each executor. -/
theorem C5_witness :
    (RESTClient.executeRequestGo 3 1000
        (fun _ => TransportOutcome.failure ⟨some 503, "Bad Gateway"⟩ :
          Nat → TransportOutcome Nat) (fun _ => 1 / 2) 1 []
      = RESTClient.executeRequestGo 3 1000
          (fun _ => TransportOutcome.failure ⟨some 503, "Bad Gateway"⟩)
          (fun _ => 1 / 2) 2 [.backoff (1000 * 2 ^ (1 - 1) + (1 / 2) * 1000)])
    ∧ (GraphQLClient.executeQueryGo 3 1000
        (fun _ => GraphQLClient.GqlOutcome.failure "timeout" :
          Nat → GraphQLClient.GqlOutcome Nat) 1 []
      = GraphQLClient.executeQueryGo 3 1000
          (fun _ => GraphQLClient.GqlOutcome.failure "timeout") 2
          [.backoff (1000 * 2 ^ (1 - 1))]) := by
  constructor
  · exact C5_backoff_delay_formulas.1 Nat 3 1000 _ _ 1 [] ⟨some 503, "Bad Gateway"⟩
      rfl (by decide) (by decide) (by decide)
  · exact C5_backoff_delay_formulas.2 Nat 3 1000 _ 1 [] "timeout"
      rfl (by decide) (by decide) (by decide)

/-! ## C6 -/

/-- C6 (amended): with `maxRetries = 3`, a request failing with HTTP 503 on
attempts 1 and 2 and succeeding on attempt 3 returns the attempt-3 payload
(whatever the 503 messages are — both the rate-limit path and the
backoff path retry); and a request failing with HTTP 404 whose message
triggers neither the message-based rate-limit classifier nor the retryable
classifier fails immediately on attempt 1, with no backoff or wait. -/
theorem C6_retry_classification :
    (∀ (α : Type) (retryDelay : Rat) (rand : Nat → Rat) (m1 m2 : String) (p : α),
        (RESTClient.executeRequest 3 retryDelay
          (fun n => if n = 1 then .failure ⟨some 503, m1⟩
                    else if n = 2 then .failure ⟨some 503, m2⟩
                    else .success p) rand).1 = ExecResult.ok p)
    ∧ (∀ (α : Type) (retryDelay : Rat) (rand : Nat → Rat) (m : String),
        RESTClient.isRateLimitError ⟨some 404, m⟩ = false →
        RESTClient.isRetryableError ⟨some 404, m⟩ = false →
        (RESTClient.executeRequest 3 retryDelay
            (fun _ => .failure ⟨some 404, m⟩) rand : ExecResult α × List ExecEvent).1
          = ExecResult.failed 1
        ∧ (RESTClient.executeRequest 3 retryDelay
            (fun _ => .failure ⟨some 404, m⟩) rand : ExecResult α × List ExecEvent).2
          = []) := by
  constructor
  · intro α retryDelay rand m1 m2 p
    have h503 : ∀ m, RESTClient.isRetryableError ⟨some 503, m⟩ = true := fun m => by
      simp [RESTClient.isRetryableError]
    by_cases hrl1 : RESTClient.isRateLimitError ⟨some 503, m1⟩ = true
      <;> by_cases hrl2 : RESTClient.isRateLimitError ⟨some 503, m2⟩ = true
      <;> simp +decide [RESTClient.executeRequest, RESTClient.executeRequestGo.eq_def,
            hrl1, hrl2, h503]
  · intro α retryDelay rand m hrl hre
    constructor
      <;> simp +decide [RESTClient.executeRequest, RESTClient.executeRequestGo.eq_def,
            hrl, hre]

/-- C6 counterexample: a request that always fails with HTTP 404 and message
"rate limit exceeded" is classified by the message-based rate-limit check
and *is* retried — it suspends twice in `waitForRateLimit` and fails with a
`RateLimitError` on attempt 3, not on attempt 1. -/
theorem C6_counterexample :
    (RESTClient.executeRequest 3 1000
        (fun _ => .failure ⟨some 404, "rate limit exceeded"⟩)
        (fun _ => 0) : ExecResult Nat × List ExecEvent).1 = ExecResult.rateLimited
    ∧ (RESTClient.executeRequest 3 1000
        (fun _ => .failure ⟨some 404, "rate limit exceeded"⟩)
        (fun _ => 0) : ExecResult Nat × List ExecEvent).2
      = [ExecEvent.rateLimitWait, ExecEvent.rateLimitWait] := by
  constructor
    <;> simp +decide [RESTClient.executeRequest, RESTClient.executeRequestGo.eq_def]

/-- Witness for C6: a plain `404 Not Found` fails on attempt 1 with no
suspension. -/
theorem C6_witness :
    (RESTClient.executeRequest 3 1000 (fun _ => .failure ⟨some 404, "Not Found"⟩)
        (fun _ => 0) : ExecResult Nat × List ExecEvent).1 = ExecResult.failed 1
    ∧ (RESTClient.executeRequest 3 1000 (fun _ => .failure ⟨some 404, "Not Found"⟩)
        (fun _ => 0) : ExecResult Nat × List ExecEvent).2 = [] :=
  C6_retry_classification.2 Nat 1000 (fun _ => 0) "Not Found" (by decide) (by decide)

/-! ## C8 -/

/-- C8: when the combined request of a flush fails, every query drained in
that flush batch is rejected with the same error, and the flush settles
nothing in any other way — every settlement it adds is exactly that
rejection, so no drained caller receives a partial or undefined result. -/
theorem C8_batch_atomic_failure :
    ∀ {ε ρ : Type} (maxBatchSize : Nat) (e : ε) (s : GraphQLClient.BatchState ε ρ),
      (∀ id ∈ s.queue.take maxBatchSize,
        (id, GraphQLClient.SettleKind.rejected e)
          ∈ (GraphQLClient.processBatch maxBatchSize (Except.error e) s).settled)
      ∧ (∀ x ∈ (GraphQLClient.processBatch maxBatchSize (Except.error e) s).settled,
          x ∈ s.settled ∨ (x.1 ∈ s.queue.take maxBatchSize
            ∧ x.2 = GraphQLClient.SettleKind.rejected e)) := by
  intro ε ρ m e s
  constructor
  · intro id hid
    simp only [GraphQLClient.processBatch, List.mem_append, List.mem_map]
    exact Or.inr ⟨id, hid, rfl⟩
  · intro x hx
    simp only [GraphQLClient.processBatch, List.mem_append, List.mem_map] at hx
    rcases hx with hold | ⟨id, hid, rfl⟩
    · exact Or.inl hold
    · exact Or.inr ⟨hid, rfl⟩

/-- Witness for C8: in a queue `[0, 1, 2]` with batch size 2, a failing
flush rejects the drained query `0` with the batch's error. -/
theorem C8_witness :
    (0, GraphQLClient.SettleKind.rejected (7 : Nat))
      ∈ (GraphQLClient.processBatch 2 (Except.error 7) demoBatchC8).settled :=
  (C8_batch_atomic_failure 2 7 demoBatchC8).1 0 (by decide)

/-! ## C9 -/

theorem processBatch_ids {ε ρ : Type} (m : Nat) (outcome : Except ε (List ρ))
    (s : GraphQLClient.BatchState ε ρ) :
    settledOrQueuedIds (GraphQLClient.processBatch m outcome s) = settledOrQueuedIds s
    ∧ (GraphQLClient.processBatch m outcome s).nextId = s.nextId := by
  cases outcome with
  | ok results =>
    refine ⟨?_, rfl⟩
    simp [GraphQLClient.processBatch, settledOrQueuedIds, List.map_map,
      Function.comp_def, List.enum_map_snd, List.append_assoc, List.take_append_drop]
  | error e =>
    refine ⟨?_, rfl⟩
    simp [GraphQLClient.processBatch, settledOrQueuedIds, List.map_map,
      Function.comp_def, List.append_assoc, List.take_append_drop]

theorem destroy_ids {ε ρ : Type} (s : GraphQLClient.BatchState ε ρ) :
    settledOrQueuedIds (GraphQLClient.destroy s) = settledOrQueuedIds s
    ∧ (GraphQLClient.destroy s).nextId = s.nextId := by
  refine ⟨?_, rfl⟩
  simp [GraphQLClient.destroy, settledOrQueuedIds, List.map_map, Function.comp_def]

theorem addToBatch_ids {ε ρ : Type} (m : Nat) (outcome : Except ε (List ρ))
    (s : GraphQLClient.BatchState ε ρ) :
    settledOrQueuedIds (GraphQLClient.addToBatch m outcome s)
      = settledOrQueuedIds s ++ [s.nextId]
    ∧ (GraphQLClient.addToBatch m outcome s).nextId = s.nextId + 1 := by
  simp only [GraphQLClient.addToBatch]
  split
  · refine ⟨?_, (processBatch_ids m outcome _).2⟩
    rw [(processBatch_ids m outcome _).1]
    simp [settledOrQueuedIds, List.append_assoc]
  · exact ⟨by simp [settledOrQueuedIds, List.append_assoc], rfl⟩

theorem runBatch_ids_inv {ε ρ : Type} (m : Nat) :
    ∀ evs : List (GraphQLClient.BatchEvent ε ρ),
      (settledOrQueuedIds (GraphQLClient.runBatch m evs)).Nodup
      ∧ (∀ i, i ∈ settledOrQueuedIds (GraphQLClient.runBatch m evs)
          ↔ i < (GraphQLClient.runBatch m evs).nextId) := by
  intro evs
  induction evs using List.reverseRecOn with
  | nil =>
    constructor
    · simp [GraphQLClient.runBatch, GraphQLClient.initialBatchState, settledOrQueuedIds]
    · intro i
      simp [GraphQLClient.runBatch, GraphQLClient.initialBatchState, settledOrQueuedIds]
  | append_singleton evs ev ih =>
    obtain ⟨hnd, hmem⟩ := ih
    have hrun : GraphQLClient.runBatch m (evs ++ [ev])
        = GraphQLClient.batchStep m (GraphQLClient.runBatch m evs) ev := by
      simp [GraphQLClient.runBatch, List.foldl_append]
    rw [hrun]
    cases ev with
    | enqueue outcome =>
      obtain ⟨hids, hnext⟩ := addToBatch_ids m outcome (GraphQLClient.runBatch m evs)
      constructor
      · rw [GraphQLClient.batchStep, hids]
        have hnot : (GraphQLClient.runBatch m evs).nextId
            ∉ settledOrQueuedIds (GraphQLClient.runBatch m evs) := by
          intro hc
          exact absurd ((hmem _).mp hc) (by omega)
        simp [List.nodup_append, hnd, hnot]
      · intro i
        rw [GraphQLClient.batchStep, hids, hnext]
        simp only [List.mem_append, List.mem_singleton, hmem i]
        omega
    | timerFlush outcome =>
      obtain ⟨hids, hnext⟩ := processBatch_ids m outcome (GraphQLClient.runBatch m evs)
      rw [GraphQLClient.batchStep, hids, hnext]
      exact ⟨hnd, hmem⟩
    | destroy =>
      obtain ⟨hids, hnext⟩ := destroy_ids (GraphQLClient.runBatch m evs)
      rw [GraphQLClient.batchStep, hids, hnext]
      exact ⟨hnd, hmem⟩

/-- C9: every query enqueued in the batching queue is settled at most once
over any event sequence — the settlement log never records the same queued
query twice — and on a trace ending with `destroy` every query the client
ever allocated has been settled exactly once: either by the flush of its
batch (timer- or size-triggered) or by the shutdown rejection of the
still-queued items. -/
theorem C9_settled_exactly_once :
    ∀ {ε ρ : Type} (maxBatchSize : Nat),
      (∀ evs : List (GraphQLClient.BatchEvent ε ρ),
        ((GraphQLClient.runBatch maxBatchSize evs).settled.map Prod.fst).Nodup)
      ∧ (∀ evs : List (GraphQLClient.BatchEvent ε ρ), ∀ i,
          i < (GraphQLClient.runBatch maxBatchSize (evs ++ [.destroy])).nextId →
          ((GraphQLClient.runBatch maxBatchSize
              (evs ++ [.destroy])).settled.map Prod.fst).count i = 1) := by
  intro ε ρ m
  constructor
  · intro evs
    exact ((List.nodup_append.mp (runBatch_ids_inv m evs).1)).1
  · intro evs i hi
    obtain ⟨hnd, hmem⟩ := runBatch_ids_inv m (evs ++ [GraphQLClient.BatchEvent.destroy])
    have hqueue : (GraphQLClient.runBatch m
        (evs ++ [GraphQLClient.BatchEvent.destroy])).queue = [] := by
      simp [GraphQLClient.runBatch, List.foldl_append, GraphQLClient.batchStep,
        GraphQLClient.destroy]
    have hids : settledOrQueuedIds (GraphQLClient.runBatch m
        (evs ++ [GraphQLClient.BatchEvent.destroy]))
        = (GraphQLClient.runBatch m
            (evs ++ [GraphQLClient.BatchEvent.destroy])).settled.map Prod.fst := by
      simp [settledOrQueuedIds, hqueue]
    rw [hids] at hnd hmem
    exact List.count_eq_one_of_mem hnd ((hmem i).mpr hi)

/-- Witness for C9: one enqueued query, client destroyed — query 0 is
settled exactly once. -/
theorem C9_witness :
    (((GraphQLClient.runBatch 10
        ([GraphQLClient.BatchEvent.enqueue (Except.error 7)]
          ++ [.destroy]) : GraphQLClient.BatchState Nat Nat)).settled.map
        Prod.fst).count 0 = 1 :=
  (C9_settled_exactly_once 10).2 [GraphQLClient.BatchEvent.enqueue (Except.error 7)] 0
    (by decide)

end GPM
